import Mathlib

/-!
Verification development for three adapter modules of the editor code base:

* `ThemingRegistry` (theming participant registration / disposal),
  from the theming service module;
* `getSecondary` / `registerQuickPickCommandAndKeybindingRule`,
  from `src/code/src/vs/platform/quickinput/browser/quickInputActions.ts`;
* `TypeScriptDocumentSymbolProvider` (`provideDocumentSymbols`,
  `convertNavTree`, `shouldInclueEntry`), from
  `src/extensions/typescript-language-features/src/features/documentSymbol.ts`.

The JavaScript/TypeScript code is shallowly embedded: arrays become `List`,
`undefined`-able values become `Option`, thrown exceptions become
`Except.error`, and the mutable `bucket`/`secondary` arrays become explicit
list results.  Theming participants are identity-compared callbacks in the
source; here they are values of an arbitrary type with decidable equality.
-/

namespace Theming

/-- JavaScript `Array.prototype.indexOf`: index of the first occurrence of
`p`, or `-1` when `p` does not occur. -/
def jsIndexOf [DecidableEq α] : List α → α → Int
  | [], _ => -1
  | a :: as, p =>
    if a = p then 0
    else
      let r := jsIndexOf as p
      if r < 0 then -1 else r + 1

/-- JavaScript `Array.prototype.splice(start, 1)` (returning the mutated
array): a negative `start` counts from the end and is clamped at `0`; a
`start` at or beyond the length deletes nothing. -/
def jsSplice1 (l : List α) (start : Int) : List α :=
  let actualStart : Nat :=
    if start < 0 then ((l.length : Int) + start).toNat else min start.toNat l.length
  l.take actualStart ++ l.drop (actualStart + 1)

/-- `ThemingRegistry.onThemeChange`, registration effect on the participant
list: `this.themingParticipants.push(participant)`. -/
def onThemeChangeRegister [DecidableEq α] (l : List α) (p : α) : List α :=
  l ++ [p]

/-- Effect of one call to the `dispose` closure returned by
`ThemingRegistry.onThemeChange`:
`const idx = this.themingParticipants.indexOf(participant);
 this.themingParticipants.splice(idx, 1);`. -/
def disposeOnce [DecidableEq α] (l : List α) (p : α) : List α :=
  jsSplice1 l (jsIndexOf l p)

end Theming

namespace QuickInput

/-- Modelled from the spec: the modifier bits of a chord
(`vs/base/common/keyCodes` is not among the given sources).  The spec's
glossary describes a chord as "a base key plus modifier bits"; the three
modifier constants used by `getSecondary` are distinct bit flags.  This is
the primary-button control/command modifier flag. -/
def KeyModCtrlCmd : Nat := 2048

/-- Modelled from the spec: the Alt modifier bit flag. -/
def KeyModAlt : Nat := 512

/-- Modelled from the spec: the WinCtrl modifier bit flag (the
secondary-button control modifier on the Macintosh platform family). -/
def KeyModWinCtrl : Nat := 256

/-- The `options` record of `getSecondary` /
`registerQuickPickCommandAndKeybindingRule`. -/
structure SecondaryOptions where
  withAltMod : Bool
  withCtrlMod : Bool
  withCmdMod : Bool

/-- `getSecondary(primary, secondary, options)` from `quickInputActions.ts`,
with the platform constant `isMacintosh` passed explicitly.  Each
`secondary.push(x)` becomes an append of `[x]`, in the source's order. -/
def getSecondary (isMacintosh : Bool) (primary : Nat) (secondary : List Nat)
    (options : SecondaryOptions) : List Nat :=
  let s1 := if options.withAltMod then secondary ++ [KeyModAlt + primary] else secondary
  let ctrlKeyMod := if isMacintosh then KeyModWinCtrl else KeyModCtrlCmd
  let s2 :=
    if options.withCtrlMod then
      (s1 ++ [ctrlKeyMod + primary]) ++
        (if options.withAltMod then [KeyModAlt + ctrlKeyMod + primary] else [])
    else s1
  let s3 :=
    if options.withCmdMod && isMacintosh then
      ((s2 ++ [KeyModCtrlCmd + primary]) ++
          (if options.withCtrlMod then [KeyModCtrlCmd + KeyModWinCtrl + primary] else [])) ++
        (if options.withAltMod then
          [KeyModCtrlCmd + KeyModAlt + primary] ++
            (if options.withCtrlMod then
              [KeyModCtrlCmd + KeyModAlt + KeyModWinCtrl + primary]
            else [])
        else [])
    else s2
  s3

/-- Spec-side enumeration of the generated modifier combinations, written
from the spec's words: "alt alone, ctrl alone, alt+ctrl, and
(platform-gated) cmd, cmd+ctrl, cmd+alt, cmd+alt+ctrl — only the subset
whose flags are set", where the "ctrl" modifier is the platform-dependent
control key. -/
def specCombinations (isMacintosh alt ctrl cmd : Bool) (p : Nat) : List Nat :=
  let ctrlMod := if isMacintosh then KeyModWinCtrl else KeyModCtrlCmd
  (if alt then [KeyModAlt + p] else []) ++
  (if ctrl then [ctrlMod + p] else []) ++
  (if alt && ctrl then [KeyModAlt + ctrlMod + p] else []) ++
  (if cmd && isMacintosh then [KeyModCtrlCmd + p] else []) ++
  (if cmd && isMacintosh && ctrl then [KeyModCtrlCmd + KeyModWinCtrl + p] else []) ++
  (if cmd && isMacintosh && alt then [KeyModCtrlCmd + KeyModAlt + p] else []) ++
  (if cmd && isMacintosh && alt && ctrl then
    [KeyModCtrlCmd + KeyModAlt + KeyModWinCtrl + p]
  else [])

end QuickInput

namespace DocSymbol

/-- `Proto.TextSpan`: a start and an end `Location`, each a one-based
`(line, offset)` pair. -/
structure TextSpan where
  startLine : Nat
  startOffset : Nat
  endLine : Nat
  endOffset : Nat
deriving DecidableEq, Repr

/-- `vscode.Range` as produced by the converter: zero-based positions. -/
structure VRange where
  startLine : Nat
  startCharacter : Nat
  endLine : Nat
  endCharacter : Nat
deriving DecidableEq, Repr

/-- Modelled from the spec: `typeConverters.Range.fromTextSpan` ("a
text-range conversion utility", not among the given sources), shifting the
one-based protocol locations to zero-based editor positions.  No claim
depends on the arithmetic, only on a span being consumed. -/
def fromTextSpan (s : TextSpan) : VRange :=
  ⟨s.startLine - 1, s.startOffset - 1, s.endLine - 1, s.endOffset - 1⟩

/-- `vscode.SymbolKind` values used by `getSymbolKind`. -/
inductive SymbolKind where
  | module | cls | enum | interface | method | property | variable | function
deriving DecidableEq, Repr

/-- Modelled from the spec: the protocol kind strings of `protocol.const`
(not among the given sources); the spec calls the kind "a kind tag" and
singles out "an alias kind".  Only distinctness of the strings matters. -/
def Kind.alias : String := "alias"

/-- Modelled from the spec: protocol kind string for modules. -/
def Kind.module : String := "module"

/-- Modelled from the spec: protocol kind string for classes. -/
def Kind.cls : String := "class"

/-- Modelled from the spec: protocol kind string for enums. -/
def Kind.enum : String := "enum"

/-- Modelled from the spec: protocol kind string for interfaces. -/
def Kind.interface : String := "interface"

/-- Modelled from the spec: protocol kind string for methods. -/
def Kind.memberFunction : String := "method"

/-- Modelled from the spec: protocol kind string for properties. -/
def Kind.memberVariable : String := "property"

/-- Modelled from the spec: protocol kind string for getters. -/
def Kind.memberGetAccessor : String := "getter"

/-- Modelled from the spec: protocol kind string for setters. -/
def Kind.memberSetAccessor : String := "setter"

/-- Modelled from the spec: protocol kind string for variables. -/
def Kind.variable : String := "var"

/-- Modelled from the spec: protocol kind string for constants. -/
def Kind.const : String := "const"

/-- Modelled from the spec: protocol kind string for local variables. -/
def Kind.localVariable : String := "local var"

/-- Modelled from the spec: protocol kind string for functions. -/
def Kind.function : String := "function"

/-- Modelled from the spec: protocol kind string for local functions. -/
def Kind.localFunction : String := "local function"

/-- `getSymbolKind`: the fixed lookup table from protocol kind strings to
`vscode.SymbolKind`, defaulting to `Variable`. -/
def getSymbolKind (kind : String) : SymbolKind :=
  if kind = Kind.module then .module
  else if kind = Kind.cls then .cls
  else if kind = Kind.enum then .enum
  else if kind = Kind.interface then .interface
  else if kind = Kind.memberFunction then .method
  else if kind = Kind.memberVariable then .property
  else if kind = Kind.memberGetAccessor then .property
  else if kind = Kind.memberSetAccessor then .property
  else if kind = Kind.variable then .variable
  else if kind = Kind.const then .variable
  else if kind = Kind.localVariable then .variable
  else if kind = Kind.function then .function
  else if kind = Kind.localFunction then .function
  else .variable

/-- `Proto.NavigationTree`: `text`, `kind`, `spans` and the optional
`childItems` array (`none` models the field being `undefined`). -/
inductive NavTree where
  | mk (text : String) (kind : String) (spans : List TextSpan)
      (childItems : Option (List NavTree))
deriving Repr

/-- The `text` field of a navigation tree node. -/
def NavTree.text : NavTree → String
  | .mk t _ _ _ => t

/-- The `kind` field of a navigation tree node. -/
def NavTree.kind : NavTree → String
  | .mk _ k _ _ => k

/-- The `spans` field of a navigation tree node. -/
def NavTree.spans : NavTree → List TextSpan
  | .mk _ _ s _ => s

/-- The `childItems` field of a navigation tree node. -/
def NavTree.childItems : NavTree → Option (List NavTree)
  | .mk _ _ _ c => c

/-- `vscode.DocumentSymbol`: name, detail, kind, range, selection range and
the mutable `children` array the converter pushes into. -/
inductive DocumentSymbol where
  | mk (name : String) (detail : String) (kind : SymbolKind)
      (range : VRange) (selectionRange : VRange)
      (children : List DocumentSymbol)
deriving Repr

/-- The `name` field of a document symbol. -/
def DocumentSymbol.name : DocumentSymbol → String
  | .mk n _ _ _ _ _ => n

/-- The `children` list of a document symbol. -/
def DocumentSymbol.children : DocumentSymbol → List DocumentSymbol
  | .mk _ _ _ _ _ c => c

/-- `TypeScriptDocumentSymbolProvider.shouldInclueEntry` (sic): alias-kind
entries are rejected; otherwise the label must be truthy (non-empty) and
differ from the placeholder labels. -/
def shouldInclueEntry (item : NavTree) : Bool :=
  if item.kind = Kind.alias then false
  else !(item.text = "") && !(item.text = "<function>") && !(item.text = "<class>")

mutual

/-- `TypeScriptDocumentSymbolProvider.convertNavTree`, as a pure function.
The JavaScript pushes `symbolInfo` onto the caller's `bucket` exactly when
it returns `true`; here the pair `(shouldInclude, symbolInfo)` is returned
and the caller appends.  `item.spans[0]` on an empty `spans` array yields
`undefined`, on which the range conversion faults: modelled as
`Except.error ()`. -/
def convertNavTree : NavTree → Except Unit (Bool × DocumentSymbol)
  | .mk text kind spans childItems => do
    let span0 ← match spans with
      | [] => Except.error ()
      | s :: _ => Except.ok s
    let childResults ← match childItems with
      | none => Except.ok []
      | some cs => convertNavTreeList cs
    let shouldInclude :=
      shouldInclueEntry (.mk text kind spans childItems) ||
        childResults.any (fun r => r.1)
    let symbolInfo : DocumentSymbol :=
      .mk text "" (getSymbolKind kind) (fromTextSpan span0) (fromTextSpan span0)
        ((childResults.filter (fun r => r.1)).map (fun r => r.2))
    Except.ok (shouldInclude, symbolInfo)

/-- The `for (const child of item.childItems)` loop of `convertNavTree`,
converting children left to right. -/
def convertNavTreeList : List NavTree → Except Unit (List (Bool × DocumentSymbol))
  | [] => Except.ok []
  | c :: cs => do
    let r ← convertNavTree c
    let rs ← convertNavTreeList cs
    Except.ok (r :: rs)

end

/-- JavaScript truthiness of the `string | undefined` file path returned by
`client.toPath`: falsy when `undefined` or the empty string. -/
def jsTruthyStr : Option String → Bool
  | none => false
  | some s => !(s = "")

/-- `TypeScriptDocumentSymbolProvider.provideDocumentSymbols`, with the two
external effects passed as inputs: `file` is the `client.toPath` result and
`response` the outcome of `client.execute('navtree', ...)` (an
`Except.error` models a rejected or cancelled promise, `Option NavTree`
the possibly-`undefined` body).  The result `Except.error` models an
exception escaping the conversion loop; `Except.ok none` is the
`undefined` "no result" value. -/
def provideDocumentSymbols (file : Option String)
    (response : Except Unit (Option NavTree)) :
    Except Unit (Option (List DocumentSymbol)) :=
  if !(jsTruthyStr file) then Except.ok none
  else
    match response with
    | Except.error _ => Except.ok none
    | Except.ok none => Except.ok none
    | Except.ok (some tree) =>
      match tree.childItems with
      | none => Except.ok none
      | some cs =>
        match convertNavTreeList cs with
        | Except.error e => Except.error e
        | Except.ok rs =>
          Except.ok (some ((rs.filter (fun r => r.1)).map (fun r => r.2)))

mutual

/-- Spec-side predicate: some node of the subtree satisfies the per-entry
inclusion predicate (written from the spec's "a parent is included in
output if it itself qualifies or any descendant qualifies"). -/
def subtreeQualifies : NavTree → Bool
  | .mk text kind spans childItems =>
    shouldInclueEntry (.mk text kind spans childItems) ||
      (match childItems with
        | none => false
        | some cs => subtreeQualifiesList cs)

/-- Some tree in the list has a qualifying node. -/
def subtreeQualifiesList : List NavTree → Bool
  | [] => false
  | c :: cs => subtreeQualifies c || subtreeQualifiesList cs

end

mutual

/-- Every node of the tree has a non-empty `spans` array. -/
def allSpansNonempty : NavTree → Bool
  | .mk _ _ spans ci =>
    !(spans.isEmpty) &&
      (match ci with
        | none => true
        | some cs => allSpansNonemptyList cs)

/-- Every node of every tree in the list has a non-empty `spans` array. -/
def allSpansNonemptyList : List NavTree → Bool
  | [] => true
  | c :: cs => allSpansNonempty c && allSpansNonemptyList cs

end

mutual

/-- Replace every node's `spans` by its first element alone (when present),
leaving all other fields unchanged. -/
def truncSpans : NavTree → NavTree
  | .mk t k spans ci =>
    .mk t k (spans.take 1)
      (match ci with
        | none => none
        | some cs => some (truncSpansList cs))

/-- `truncSpans` mapped over a list of trees. -/
def truncSpansList : List NavTree → List NavTree
  | [] => []
  | c :: cs => truncSpans c :: truncSpansList cs

end

/-- The conversion succeeded (did not fault). -/
def isOkB : Except Unit α → Bool
  | Except.ok _ => true
  | Except.error _ => false

/-- One-based span covering a single position, for concrete examples. -/
def spanOne : TextSpan := ⟨1, 1, 1, 1⟩

/-- The zero-based range `fromTextSpan` produces from `spanOne`. -/
def rangeZero : VRange := ⟨0, 0, 0, 0⟩

/-- Example leaf: a qualifying variable named `x`. -/
def varLeaf : NavTree := .mk "x" "var" [spanOne] none

/-- Example: an anonymous-function placeholder node (label `<function>`,
kind `function`) with the qualifying grandchild `x` beneath it. -/
def fnPlaceholderNode : NavTree := .mk "<function>" "function" [spanOne] (some [varLeaf])

/-- Example: a class node `C` whose only child is the placeholder node. -/
def classNode : NavTree := .mk "C" "class" [spanOne] (some [fnPlaceholderNode])

/-- Converted symbol for `varLeaf`. -/
def varLeafSym : DocumentSymbol := .mk "x" "" .variable rangeZero rangeZero []

/-- Converted symbol for `fnPlaceholderNode`; note `varLeafSym` stays in
its `children`. -/
def fnPlaceholderSym : DocumentSymbol :=
  .mk "<function>" "" .function rangeZero rangeZero [varLeafSym]

/-- Converted symbol for `classNode`. -/
def classSym : DocumentSymbol := .mk "C" "" .cls rangeZero rangeZero [fnPlaceholderSym]

/-- Example: an alias-kind node with a qualifying child. -/
def aliasNode : NavTree := .mk "a" "alias" [spanOne] (some [varLeaf])

/-- Example: an alias-kind leaf without children. -/
def aliasLeaf : NavTree := .mk "a" "alias" [spanOne] none

/-- Example root tree whose only top-level item is `aliasNode`. -/
def rootTree : NavTree := .mk "file" "module" [] (some [aliasNode])

/-- Converted symbol for `aliasNode` (kind defaults to `variable`). -/
def aliasSym : DocumentSymbol := .mk "a" "" .variable rangeZero rangeZero [varLeafSym]

end DocSymbol

namespace Theming

theorem jsIndexOf_append_singleton_of_not_mem [DecidableEq α]
    (l : List α) (p : α) (h : p ∉ l) :
    jsIndexOf (l ++ [p]) p = (l.length : Int) := by
  induction l with
  | nil => simp [jsIndexOf]
  | cons a as ih =>
    have ha : a ≠ p := by
      intro hap
      exact h (by simp [hap])
    have hmem : p ∉ as := fun hm => h (List.mem_cons_of_mem a hm)
    have hres := ih hmem
    simp only [List.cons_append, jsIndexOf, if_neg ha, List.append_eq, hres]
    have hnn : ¬ ((as.length : Int) < 0) := by omega
    rw [if_neg hnn]
    simp only [List.length_cons]
    push_cast
    omega

theorem disposeOnce_append_singleton_of_not_mem [DecidableEq α]
    (l : List α) (p : α) (h : p ∉ l) :
    disposeOnce (l ++ [p]) p = l := by
  unfold disposeOnce jsSplice1
  rw [jsIndexOf_append_singleton_of_not_mem l p h]
  have h0 : ¬ ((l.length : Int) < 0) := by omega
  simp only [h0, if_false]
  have htn : (l.length : Int).toNat = l.length := Int.toNat_natCast _
  rw [htn]
  have hlen : min l.length (l ++ [p]).length = l.length := by
    simp
  rw [hlen]
  simp

/-- Claim C3 (code bug): evaluation of the registry code at the failing
input.  Start from participant list `[1]`, register participant `0`
(giving `[1, 0]`) and call the returned dispose handle twice.  The first
call removes `0`; the second call computes `indexOf(0) = -1` and
`splice(-1, 1)` then deletes the **last** element, removing the unrelated
participant `1`.  The claim (and the disposable convention the spec states)
requires the second call to be a no-op, leaving `[1]`. -/
theorem disposeOnce_second_call_removes_last_element :
    disposeOnce (disposeOnce (onThemeChangeRegister [1] 0) 0) 0 = ([] : List Nat) ∧
      disposeOnce (onThemeChangeRegister [1] 0) 0 = [1] ∧
      (([] : List Nat) ≠ [1]) := by
  decide

/-- Claim C4, counterexample: with participant list `[0, 1]`, registering
`0` again and immediately disposing the new handle removes the **first**
occurrence of `0`, leaving `[1, 0]`, which differs from the original list
`[0, 1]`. -/
theorem register_dispose_reorders_duplicate :
    disposeOnce (onThemeChangeRegister [0, 1] 0) 0 = [1, 0] ∧
      ([1, 0] : List Nat) ≠ [0, 1] := by
  decide

/-- Claim C4 (amended): provided the participant is not already registered,
registering it and immediately calling the returned handle's dispose leaves
the participant list equal to the list before the registration.  (If it was
already present, only the multiset of participants is restored: dispose
removes the first occurrence, not the newly appended one.) -/
theorem register_then_dispose_restores_of_not_mem [DecidableEq α]
    (l : List α) (p : α) (h : p ∉ l) :
    disposeOnce (onThemeChangeRegister l p) p = l :=
  disposeOnce_append_singleton_of_not_mem l p h

/-- Witness for C4 (amended) at `l = [1]`, `p = 0`. -/
theorem register_then_dispose_restores_of_not_mem_witness :
    (0 : Nat) ∉ [1] ∧ disposeOnce (onThemeChangeRegister [1] 0) 0 = [1] :=
  ⟨by decide, register_then_dispose_restores_of_not_mem [1] 0 (by decide)⟩

end Theming

namespace QuickInput

/-- Claim C7: on the non-command-modifier platform (`isMacintosh = false`),
for every primary chord `p` and empty initial secondary list, `getSecondary`
with all three modifier options returns exactly `Alt+p`, `Ctrl+p` and
`Alt+Ctrl+p` (the control modifier being the primary-button control flag on
this platform), and no command-modifier entries. -/
theorem getSecondary_nonMac_all_flags (p : Nat) :
    getSecondary false p [] ⟨true, true, true⟩ =
      [KeyModAlt + p, KeyModCtrlCmd + p, KeyModAlt + KeyModCtrlCmd + p] :=
  rfl

/-- Claim C8: `getSecondary` is a deterministic function of the platform
flag, primary chord and option flags, and with an empty initial secondary
list it produces exactly the spec's enumeration: alt, ctrl, alt+ctrl, and —
only on the Macintosh platform family — cmd, cmd+ctrl, cmd+alt,
cmd+alt+ctrl, restricted to the combinations all of whose constituent
flags are set; no cmd-bearing variant appears off that platform. -/
theorem getSecondary_eq_specCombinations (isMacintosh : Bool) (p : Nat)
    (o : SecondaryOptions) :
    getSecondary isMacintosh p [] o =
      specCombinations isMacintosh o.withAltMod o.withCtrlMod o.withCmdMod p := by
  obtain ⟨a, c, m⟩ := o
  cases isMacintosh <;> cases a <;> cases c <;> cases m <;> rfl

/-- Claim C10: the caller-supplied secondary list is kept as a prefix: the
generated modifier combinations are appended after the pre-existing chords,
and no pre-existing chord is modified or removed. -/
theorem getSecondary_appends_to_existing_secondary (isMacintosh : Bool) (p : Nat)
    (secondary : List Nat) (o : SecondaryOptions) :
    getSecondary isMacintosh p secondary o =
      secondary ++ getSecondary isMacintosh p [] o := by
  obtain ⟨a, c, m⟩ := o
  cases isMacintosh <;> cases a <;> cases c <;> cases m <;> simp [getSecondary]

end QuickInput

namespace DocSymbol

/-- Claim C6: the per-node inclusion predicate holds exactly when the kind
is not the alias kind, the label is non-empty, and the label is neither of
the two placeholder labels. -/
theorem shouldInclueEntry_characterization (item : NavTree) :
    shouldInclueEntry item = true ↔
      (item.kind ≠ Kind.alias ∧ item.text ≠ "" ∧
        item.text ≠ "<function>" ∧ item.text ≠ "<class>") := by
  unfold shouldInclueEntry
  split
  · simp_all
  · simp_all [and_assoc]

mutual

theorem convert_fst_eq : ∀ (t : NavTree) (b : Bool) (s : DocumentSymbol),
    convertNavTree t = Except.ok (b, s) → b = subtreeQualifies t
  | .mk text kind spans ci, b, s, h => by
    cases spans with
    | nil => simp [convertNavTree, Bind.bind, Except.bind] at h
    | cons sp sps =>
      cases ci with
      | none =>
        simp [convertNavTree, Bind.bind, Except.bind] at h
        obtain ⟨hb, -⟩ := h
        subst hb
        simp [subtreeQualifies]
      | some cs =>
        cases hcl : convertNavTreeList cs with
        | error e => simp [convertNavTree, Bind.bind, Except.bind, hcl] at h
        | ok rs =>
          simp [convertNavTree, Bind.bind, Except.bind, hcl] at h
          obtain ⟨hb, -⟩ := h
          have hrec := convertList_any_eq cs rs hcl
          subst hb
          simp [subtreeQualifies, hrec]

theorem convertList_any_eq : ∀ (cs : List NavTree) (rs : List (Bool × DocumentSymbol)),
    convertNavTreeList cs = Except.ok rs →
      rs.any (fun r => r.1) = subtreeQualifiesList cs
  | [], rs, h => by
    simp [convertNavTreeList] at h
    subst h
    simp [subtreeQualifiesList]
  | c :: cs, rs, h => by
    cases hc : convertNavTree c with
    | error e => simp [convertNavTreeList, Bind.bind, Except.bind, hc] at h
    | ok r =>
      cases hcs : convertNavTreeList cs with
      | error e => simp [convertNavTreeList, Bind.bind, Except.bind, hc, hcs] at h
      | ok rs2 =>
        simp [convertNavTreeList, Bind.bind, Except.bind, hc, hcs] at h
        subst h
        have h1 := convert_fst_eq c r.1 r.2 (by simpa using hc)
        have h2 := convertList_any_eq cs rs2 hcs
        simp [subtreeQualifiesList, ← h1, ← h2]

end

theorem convertList_mem (cs : List NavTree) (rs : List (Bool × DocumentSymbol))
    (h : convertNavTreeList cs = Except.ok rs) :
    ∀ c ∈ cs, ∀ (bc : Bool) (sc : DocumentSymbol),
      convertNavTree c = Except.ok (bc, sc) → (bc, sc) ∈ rs := by
  induction cs generalizing rs with
  | nil => intro c hc; simp at hc
  | cons d ds ih =>
    cases hd : convertNavTree d with
    | error e => simp [convertNavTreeList, Bind.bind, Except.bind, hd] at h
    | ok r =>
      cases hds : convertNavTreeList ds with
      | error e => simp [convertNavTreeList, Bind.bind, Except.bind, hd, hds] at h
      | ok rs2 =>
        simp [convertNavTreeList, Bind.bind, Except.bind, hd, hds] at h
        subst h
        intro c hc bc sc hcv
        rcases List.mem_cons.mp hc with hceq | hcm
        · subst hceq
          rw [hd] at hcv
          simp at hcv
          simp [hcv]
        · exact List.mem_cons_of_mem _ (ih rs2 hds c hcm bc sc hcv)

theorem convert_children_eq (text kind : String) (sp : TextSpan) (sps : List TextSpan)
    (cs : List NavTree) (b : Bool) (s : DocumentSymbol)
    (h : convertNavTree (.mk text kind (sp :: sps) (some cs)) = Except.ok (b, s)) :
    ∃ rs, convertNavTreeList cs = Except.ok rs ∧
      s.children = (rs.filter (fun r => r.1)).map (fun r => r.2) ∧
      b = (shouldInclueEntry (.mk text kind (sp :: sps) (some cs)) ||
            rs.any (fun r => r.1)) := by
  cases hcl : convertNavTreeList cs with
  | error e => simp [convertNavTree, Bind.bind, Except.bind, hcl] at h
  | ok rs =>
    simp [convertNavTree, Bind.bind, Except.bind, hcl] at h
    obtain ⟨hb, hs⟩ := h
    exact ⟨rs, rfl, by rw [← hs]; rfl, hb.symm⟩

/-- Claim C1, counterexample: for the tree `C (class)` →
`<function> (function)` → `x (var)`, the `<function>` node fails the
per-entry predicate yet is **not** dropped: the converted class symbol's
children list is exactly `[<function> symbol]`, with the qualifying
grandchild `x` nested beneath the `<function>` symbol instead of being
re-parented into the class's children list. -/
theorem convertNavTree_retains_placeholder_function_node :
    convertNavTree classNode = Except.ok (true, classSym) ∧
      shouldInclueEntry fnPlaceholderNode = false ∧
      classSym.children.map DocumentSymbol.name = ["<function>"] ∧
      (["<function>"] : List String) ≠ [] := by
  refine ⟨rfl, rfl, rfl, by simp⟩

/-- Claim C1 (amended): exclusion of a node by the per-entry predicate does
not exclude its qualifying descendants, but they are not re-parented: the
excluded node itself is retained in the output whenever some descendant
qualifies (its inclusion flag propagates upward), and each qualifying child
symbol stays inside the excluded node's own children list. -/
theorem convertNavTree_excluded_node_propagation
    (text kind : String) (sp : TextSpan) (sps : List TextSpan) (cs : List NavTree)
    (b : Bool) (s : DocumentSymbol)
    (h : convertNavTree (.mk text kind (sp :: sps) (some cs)) = Except.ok (b, s))
    (hexcl : shouldInclueEntry (.mk text kind (sp :: sps) (some cs)) = false) :
    b = subtreeQualifiesList cs ∧
      ∀ c ∈ cs, ∀ (bc : Bool) (sc : DocumentSymbol),
        convertNavTree c = Except.ok (bc, sc) → bc = true → sc ∈ s.children := by
  obtain ⟨rs, hrs, hchild, hb⟩ := convert_children_eq text kind sp sps cs b s h
  constructor
  · have h1 := convert_fst_eq _ b s h
    rw [h1]
    simp [subtreeQualifies, hexcl]
  · intro c hc bc sc hcv hbc
    have hmem := convertList_mem cs rs hrs c hc bc sc hcv
    rw [hchild]
    subst hbc
    exact List.mem_map.mpr ⟨(true, sc), List.mem_filter.mpr ⟨hmem, rfl⟩, rfl⟩

/-- Witness for C1 (amended) at the `<function>` placeholder node. -/
theorem convertNavTree_excluded_node_propagation_witness :
    convertNavTree fnPlaceholderNode = Except.ok (true, fnPlaceholderSym) ∧
      true = subtreeQualifiesList [varLeaf] :=
  ⟨rfl,
    (convertNavTree_excluded_node_propagation "<function>" "function" spanOne [] [varLeaf]
      true fnPlaceholderSym rfl rfl).1⟩

/-- Claim C2, counterexample: the alias-kind node `a` with qualifying child
`x` appears in the output of `provideDocumentSymbols` (with `x` as its
child), contradicting "every alias-kind node is excluded even when
descendants qualify". -/
theorem provideDocumentSymbols_alias_node_in_output :
    provideDocumentSymbols (some "a.ts") (Except.ok (some rootTree)) =
        Except.ok (some [aliasSym]) ∧
      aliasNode.kind = Kind.alias ∧
      aliasSym.name = "a" ∧
      (Except.ok (some [aliasSym]) :
          Except Unit (Option (List DocumentSymbol))) ≠ Except.ok (some []) := by
  refine ⟨rfl, rfl, rfl, by simp⟩

/-- Claim C2 (amended): an alias-kind node always fails the per-entry
predicate, so it is included in the output exactly when some descendant
subtree qualifies; in particular an alias-kind node with no qualifying
descendant is excluded. -/
theorem convertNavTree_alias_inclusion_via_descendants
    (text : String) (spans : List TextSpan) (ci : Option (List NavTree))
    (b : Bool) (s : DocumentSymbol)
    (h : convertNavTree (.mk text Kind.alias spans ci) = Except.ok (b, s)) :
    b = subtreeQualifiesList (ci.getD []) := by
  have h1 := convert_fst_eq _ b s h
  rw [h1]
  have hst : shouldInclueEntry (.mk text Kind.alias spans ci) = false := by
    simp [shouldInclueEntry, NavTree.kind]
  cases ci with
  | none => simp [subtreeQualifies, hst, subtreeQualifiesList]
  | some cs => simp [subtreeQualifies, hst]

/-- Witness for C2 (amended) at the childless alias leaf, which is
excluded. -/
theorem convertNavTree_alias_inclusion_via_descendants_witness :
    convertNavTree aliasLeaf =
        Except.ok (false, DocumentSymbol.mk "a" "" .variable rangeZero rangeZero []) ∧
      false = subtreeQualifiesList (Option.getD none []) :=
  ⟨rfl,
    convertNavTree_alias_inclusion_via_descendants "a" [spanOne] none false
      (DocumentSymbol.mk "a" "" .variable rangeZero rangeZero []) rfl⟩

/-- Claim C5, counterexample: a response body whose `childItems` is present
but **empty** has no child items, yet `provideDocumentSymbols` returns the
empty array, not the `undefined` "no result" value. -/
theorem provideDocumentSymbols_empty_childItems_gives_empty_array :
    provideDocumentSymbols (some "a.ts")
        (Except.ok (some (.mk "a.ts" "module" [] (some [])))) =
      Except.ok (some []) ∧
      (Except.ok (some ([] : List DocumentSymbol)) :
          Except Unit (Option (List DocumentSymbol))) ≠ Except.ok none := by
  refine ⟨rfl, by simp⟩

/-- Claim C5 (amended): `provideDocumentSymbols` resolves to the
`undefined` "no result" value — without raising — when the resource cannot
be resolved to a (truthy) file path, when the remote `navtree` call rejects
or is cancelled, when the response body is absent, or when the body's
`childItems` field is absent; when `childItems` is present but empty it
resolves to the empty symbol array instead. -/
theorem provideDocumentSymbols_no_result_cases (file : Option String)
    (response : Except Unit (Option NavTree)) :
    (jsTruthyStr file = false → provideDocumentSymbols file response = Except.ok none) ∧
      (response = Except.error () → provideDocumentSymbols file response = Except.ok none) ∧
      (response = Except.ok none → provideDocumentSymbols file response = Except.ok none) ∧
      (∀ t, response = Except.ok (some t) → t.childItems = none →
        provideDocumentSymbols file response = Except.ok none) ∧
      (∀ t, response = Except.ok (some t) → t.childItems = some [] →
        jsTruthyStr file = true →
        provideDocumentSymbols file response = Except.ok (some [])) := by
  refine ⟨?_, ?_, ?_, ?_, ?_⟩
  · intro hf
    simp [provideDocumentSymbols, hf]
  · intro hr
    subst hr
    cases hf : jsTruthyStr file <;> simp [provideDocumentSymbols, hf]
  · intro hr
    subst hr
    cases hf : jsTruthyStr file <;> simp [provideDocumentSymbols, hf]
  · intro t hr hc
    subst hr
    cases hf : jsTruthyStr file <;> simp [provideDocumentSymbols, hf, hc]
  · intro t hr hc hf
    subst hr
    simp [provideDocumentSymbols, hf, hc, convertNavTreeList]

/-- Witness for C5 (amended): the unresolvable-path case at `file = none`. -/
theorem provideDocumentSymbols_no_result_cases_witness :
    provideDocumentSymbols none (Except.ok none) = Except.ok none :=
  (provideDocumentSymbols_no_result_cases none (Except.ok none)).1 rfl

mutual

theorem convert_ok_of_allSpans : ∀ t : NavTree, allSpansNonempty t = true →
    isOkB (convertNavTree t) = true
  | .mk text kind spans ci, h => by
    cases spans with
    | nil => simp [allSpansNonempty] at h
    | cons sp sps =>
      cases ci with
      | none =>
        simp [convertNavTree, Bind.bind, Except.bind, isOkB]
      | some cs =>
        have hcs : allSpansNonemptyList cs = true := by
          simp [allSpansNonempty] at h
          exact h
        have hok := convertList_ok_of_allSpans cs hcs
        cases hcl : convertNavTreeList cs with
        | error e => rw [hcl] at hok; simp [isOkB] at hok
        | ok rs => simp [convertNavTree, Bind.bind, Except.bind, hcl, isOkB]

theorem convertList_ok_of_allSpans : ∀ cs : List NavTree,
    allSpansNonemptyList cs = true → isOkB (convertNavTreeList cs) = true
  | [], _ => rfl
  | c :: cs, h => by
    have h1 : allSpansNonempty c = true := by
      simp [allSpansNonemptyList] at h
      exact h.1
    have h2 : allSpansNonemptyList cs = true := by
      simp [allSpansNonemptyList] at h
      exact h.2
    have hok1 := convert_ok_of_allSpans c h1
    have hok2 := convertList_ok_of_allSpans cs h2
    cases hc : convertNavTree c with
    | error e => rw [hc] at hok1; simp [isOkB] at hok1
    | ok r =>
      cases hcs : convertNavTreeList cs with
      | error e => rw [hcs] at hok2; simp [isOkB] at hok2
      | ok rs =>
        simp [convertNavTreeList, Bind.bind, Except.bind, hc, hcs, isOkB]

end

mutual

theorem convert_truncSpans : ∀ t : NavTree,
    convertNavTree (truncSpans t) = convertNavTree t
  | .mk text kind spans ci => by
    cases spans with
    | nil =>
      cases ci with
      | none => rfl
      | some cs => simp [truncSpans, convertNavTree, Bind.bind, Except.bind]
    | cons sp sps =>
      cases ci with
      | none =>
        simp [truncSpans, convertNavTree, Bind.bind, Except.bind, shouldInclueEntry,
          NavTree.text, NavTree.kind]
      | some cs =>
        have hrec := convertList_truncSpans cs
        simp [truncSpans, convertNavTree, Bind.bind, Except.bind, hrec, shouldInclueEntry,
          NavTree.text, NavTree.kind]

theorem convertList_truncSpans : ∀ cs : List NavTree,
    convertNavTreeList (truncSpansList cs) = convertNavTreeList cs
  | [] => rfl
  | c :: cs => by
    have h1 := convert_truncSpans c
    have h2 := convertList_truncSpans cs
    simp [truncSpansList, convertNavTreeList, h1, h2]

end

/-- Claim C9: the converter reads only the first element of each node's
`spans` list.  When every node has at least one span the access is in
bounds and the conversion succeeds; and truncating every node's `spans`
to its first element never changes the result, so any further spans are
ignored. -/
theorem convertNavTree_spans_access (item : NavTree) :
    (allSpansNonempty item = true → isOkB (convertNavTree item) = true) ∧
      convertNavTree (truncSpans item) = convertNavTree item :=
  ⟨convert_ok_of_allSpans item, convert_truncSpans item⟩

/-- Witness for C9 at the concrete tree `classNode`. -/
theorem convertNavTree_spans_access_witness :
    allSpansNonempty classNode = true ∧ isOkB (convertNavTree classNode) = true :=
  ⟨rfl, (convertNavTree_spans_access classNode).1 rfl⟩

end DocSymbol
